import Mathlib

/-!
# Verification of the Playto community-feed backend core

Shallow embedding of the core of `backend/community/` (Django):

* the Like data model and its database constraints (`models.py`, `Like.Meta`,
  `Like.clean`),
* the like-toggle endpoint (`views.py`, `LikeViewSet.toggle`) together with its
  request validation (`serializers.py`, `LikeSerializer.validate`),
* the 24-hour karma leaderboard (`views.py`, `LeaderboardViewSet.top`),
* the in-memory comment-tree builder (`views.py`,
  `PostViewSet._build_comment_tree`) and the top-level comment selection
  (`serializers.py`, `PostDetailSerializer.get_comments`).

Conventions of the embedding:

* database ids are `Nat` (Django integer primary keys); a Python `None` id is
  `Option.none`.  Python truthiness of an integer-or-None value (`if post_id:`)
  is `truthy`: `none` and `some 0` are falsy.
* timestamps (`created_at`, the query instant) are `Int`, measured in hours, so
  that `timedelta(hours=24)` is the integer `24`.
* the Like table is a `List LikeRow` in insertion order; a Django
  `filter(...)`/`delete()` removes every matching row and reports the number of
  removed rows.
* the single racy interleaving point of `LikeViewSet.toggle` (between its
  `delete()` and its `create()`) is modelled by an optional row committed there
  by a concurrent transaction; the database uniqueness constraints then make the
  `create()` raise `IntegrityError`, which the view maps to HTTP 409.
-/

/-- One row of the `Like` table (`models.py`, class `Like`): a user id, an
optional post id, an optional comment id, and `created_at`. -/
structure LikeRow where
  user : Nat
  post : Option Nat
  comment : Option Nat
  created_at : Int
deriving Repr, DecidableEq

/-- One row of the `Post` table, reduced to the fields the core queries touch
(`models.py`, class `Post`): primary key and author id. -/
structure PostRow where
  id : Nat
  author : Nat
deriving Repr, DecidableEq

/-- One row of the `Comment` table, reduced to the fields the like/karma
queries touch (`models.py`, class `Comment`): primary key and author id. -/
structure CommentRow where
  id : Nat
  author : Nat
deriving Repr, DecidableEq

/-- The relational store visible to the core: users, posts, comments and the
Like table. -/
structure Store where
  users : List Nat
  posts : List PostRow
  comments : List CommentRow
  likes : List LikeRow
deriving Repr, DecidableEq

/-- Python truthiness of an integer-or-`None` value: `None` and `0` are falsy
(`if post_id:` in `serializers.py` and `views.py`). -/
def truthy : Option Nat → Bool
  | none => false
  | some n => n != 0

/-- The XOR target check of `Like.clean` (`models.py` line 140): a row is valid
iff exactly one of `post`, `comment` is set. -/
def validTarget (r : LikeRow) : Bool :=
  !((r.post == none) == (r.comment == none))

/-- The database uniqueness constraints of `Like.Meta` (`models.py` lines
107-117): two rows collide iff they share the user and a non-null post, or the
user and a non-null comment. -/
def uniqueConflict (a b : LikeRow) : Bool :=
  (a.user == b.user && a.post.isSome && a.post == b.post) ||
  (a.user == b.user && a.comment.isSome && a.comment == b.comment)

/-- A reachable Like table: every row targets exactly one of post/comment
(check constraint `like_has_single_target`) and no two rows collide on a
uniqueness constraint (`unique_user_post_like`, `unique_user_comment_like`). -/
def LikeInvariant (t : List LikeRow) : Prop :=
  (∀ r ∈ t, validTarget r = true) ∧
    List.Pairwise (fun a b => uniqueConflict a b = false) t

instance : DecidablePred LikeInvariant := fun t => by
  unfold LikeInvariant; infer_instance

/-- `LikeSerializer.validate` (`serializers.py` lines 211-229): rejects unless
exactly one of `post_id`, `comment_id` is non-null, then checks existence of
the target — but only when the supplied id is truthy (`if post_id:`), so id 0
skips the existence check. -/
def LikeSerializer.validate (store : Store) (post_id comment_id : Option Nat) :
    Except String Unit :=
  if (post_id == none) == (comment_id == none) then
    .error "Must specify exactly one: post_id or comment_id"
  else if truthy post_id && !(store.posts.any (fun p => p.id == post_id.getD 0)) then
    .error "Post does not exist"
  else if truthy comment_id && !(store.comments.any (fun c => c.id == comment_id.getD 0)) then
    .error "Comment does not exist"
  else
    .ok ()

/-- The responses `LikeViewSet.toggle` can produce: HTTP 200 `"unliked"`,
HTTP 201 `"liked"`, HTTP 409 on `IntegrityError` (concurrent modification),
HTTP 400 on serializer `ValidationError`, and an exception the view does not
catch (Django `ValidationError` raised by `Like.clean` inside `save()` is not
an `IntegrityError`, so it propagates). -/
inductive ToggleResponse where
  | unliked
  | liked
  | conflict
  | validationError (msg : String)
  | uncaughtFault (msg : String)
deriving Repr, DecidableEq

/-- `LikeViewSet.toggle` (`views.py` lines 166-215).  `race` is the row, if
any, committed by a concurrent transaction between this transaction's
`delete()` and its `create()`; the `IntegrityError` branch fires exactly when
the `create()` violates a uniqueness constraint, and the surrounding
`transaction.atomic()` rolls this transaction's changes back (the concurrent
commit survives). -/
def LikeViewSet.toggle (store : Store) (u : Nat)
    (post_id comment_id : Option Nat) (now : Int) (race : Option LikeRow) :
    ToggleResponse × List LikeRow :=
  match LikeSerializer.validate store post_id comment_id with
  | .error m => (.validationError m, store.likes)
  | .ok _ =>
    -- `if post_id:` dispatch (views.py line 186): truthiness, not non-null
    let onPost := truthy post_id
    let matchesRow : LikeRow → Bool := fun r =>
      r.user == u && (if onPost then r.post == post_id else r.comment == comment_id)
    -- deleted, _ = Like.objects.filter(**filter_kwargs).delete()
    let deleted := (store.likes.filter matchesRow).length
    if deleted > 0 then
      (.unliked, store.likes.filter (fun r => !(matchesRow r)))
    else
      -- interleaving point: a concurrent transaction may commit here
      let table1 := store.likes ++ race.toList
      let newRow : LikeRow :=
        if onPost then ⟨u, post_id, none, now⟩ else ⟨u, none, comment_id, now⟩
      -- Like.objects.create → save() → clean(): XOR check, raised as a Django
      -- ValidationError which the except-IntegrityError clause does not catch
      if (newRow.post == none) == (newRow.comment == none) then
        (.uncaughtFault "Like must target exactly one: post or comment", table1)
      else if table1.any (fun r => uniqueConflict r newRow) then
        (.conflict, table1)
      else
        (.liked, table1 ++ [newRow])

/-- A like target as the spec's §4.2 contract phrases it: an existing post or
an existing comment (exactly one). -/
inductive Target where
  | post (id : Nat)
  | comment (id : Nat)
deriving Repr, DecidableEq

/-- The `post_id` field of the request encoding a target. -/
def Target.postId : Target → Option Nat
  | .post p => some p
  | .comment _ => none

/-- The `comment_id` field of the request encoding a target. -/
def Target.commentId : Target → Option Nat
  | .post _ => none
  | .comment c => some c

/-- A valid target: the referenced row exists, and its id is a real primary
key (Django primary keys start at 1, so the id is nonzero). -/
def targetValid (store : Store) : Target → Prop
  | .post p => p ≠ 0 ∧ ∃ pr ∈ store.posts, pr.id = p
  | .comment c => c ≠ 0 ∧ ∃ cr ∈ store.comments, cr.id = c

instance targetValid.dec (store : Store) (t : Target) :
    Decidable (targetValid store t) := by
  cases t <;> (unfold targetValid; infer_instance)

/-- `r` is a Like by user `u` on target `t`. -/
def likeMatches (u : Nat) (t : Target) (r : LikeRow) : Bool :=
  match t with
  | .post p => r.user == u && r.post == some p
  | .comment c => r.user == u && r.comment == some c

/-- The row `Like.objects.create` inserts for user `u` on target `t`. -/
def mkLikeRow (u : Nat) (t : Target) (now : Int) : LikeRow :=
  match t with
  | .post p => ⟨u, some p, none, now⟩
  | .comment c => ⟨u, none, some c, now⟩

/-- `r` is a Like on target `t` (by any user). -/
def likeOn (t : Target) (r : LikeRow) : Bool :=
  match t with
  | .post p => r.post == some p
  | .comment c => r.comment == some c

/-- Number of Like rows on target `t` (the derived like count of §3). -/
def likeCountOn (t : Target) (tbl : List LikeRow) : Nat :=
  (tbl.filter (likeOn t)).length

/-- The toggle endpoint called with a single well-formed target and no
concurrent interference. -/
def toggleOn (store : Store) (u : Nat) (t : Target) (now : Int) :
    ToggleResponse × List LikeRow :=
  LikeViewSet.toggle store u t.postId t.commentId now none



/-! ## Karma leaderboard (`LeaderboardViewSet.top`, views.py lines 225-272) -/

/-- The join `post__author = u` of the post-karma subquery: `l` is a Like on a
post authored by `u`. -/
def likeOnPostOf (store : Store) (u : Nat) (l : LikeRow) : Bool :=
  store.posts.any (fun p => l.post == some p.id && p.author == u)

/-- The join `comment__author = u` of the comment-karma subquery: `l` is a
Like on a comment authored by `u`. -/
def likeOnCommentOf (store : Store) (u : Nat) (l : LikeRow) : Bool :=
  store.comments.any (fun c => l.comment == some c.id && c.author == u)

/-- The post-karma subquery with its `Coalesce(…, 0)` (views.py lines 240-248,
263): likes on `u`'s posts with `created_at__gte=time_threshold`, grouped, so
an empty group yields no row (`NULL`, coalesced to 0) and a non-empty group
yields `Count('id') * 5`. -/
def pk_karma (store : Store) (u : Nat) (time_threshold : Int) : Nat :=
  let rows := store.likes.filter
    (fun l => likeOnPostOf store u l && decide (time_threshold ≤ l.created_at))
  if rows.isEmpty then 0 else 5 * rows.length

/-- The comment-karma subquery with its `Coalesce(…, 0)` (views.py lines
251-259, 264): likes on `u`'s comments in the window, `Count('id') * 1`. -/
def ck_karma (store : Store) (u : Nat) (time_threshold : Int) : Nat :=
  let rows := store.likes.filter
    (fun l => likeOnCommentOf store u l && decide (time_threshold ≤ l.created_at))
  if rows.isEmpty then 0 else 1 * rows.length

/-- `karma_24h = F('pk_karma') + F('ck_karma')` (views.py line 266). -/
def karma_24h (store : Store) (u : Nat) (time_threshold : Int) : Nat :=
  pk_karma store u time_threshold + ck_karma store u time_threshold

/-- `order_by('-karma_24h')`: descending karma on `(user, karma)` pairs. -/
def karmaDesc (a b : Nat × Nat) : Prop := b.2 ≤ a.2

instance : DecidableRel karmaDesc := fun a b => by unfold karmaDesc; infer_instance

instance : IsTotal (Nat × Nat) karmaDesc := ⟨fun a b => Nat.le_total b.2 a.2⟩

instance : IsTrans (Nat × Nat) karmaDesc :=
  ⟨fun _ _ _ h1 h2 => Nat.le_trans h2 h1⟩

/-- `LeaderboardViewSet.top` (views.py lines 225-272): annotate every user with
`karma_24h` against the single threshold `now - 24h`, keep `karma_24h > 0`,
sort by karma descending, return the first 5 as `(user id, karma)` pairs. -/
def LeaderboardViewSet.top (store : Store) (now : Int) : List (Nat × Nat) :=
  let time_threshold := now - 24
  let scored := store.users.map (fun u => (u, karma_24h store u time_threshold))
  let positive := scored.filter (fun s => 0 < s.2)
  (positive.insertionSort karmaDesc).take 5


/-! ## Comment tree builder (`PostViewSet._build_comment_tree`, views.py lines
119-143, and `PostDetailSerializer.get_comments`, serializers.py line 170) -/

/-- A prefetched comment record, reduced to the fields the tree builder reads:
its id and its `parent_id`. -/
structure CommentRec where
  id : Nat
  parent_id : Option Nat
deriving Repr, DecidableEq

/-- The mutable `_prefetched_replies` attributes of the comment objects: an
association of comment id to its reply-id list; a missing key is an object on
which `hasattr(…, '_prefetched_replies')` is false. -/
abbrev RepliesState := List (Nat × List Nat)

/-- Read the `_prefetched_replies` attribute: `none` when unset. -/
def getRepliesAttr (s : RepliesState) (k : Nat) : Option (List Nat) :=
  (s.find? (fun e => e.1 == k)).map (fun e => e.2)

/-- Assign the `_prefetched_replies` attribute of comment `k`. -/
def setReplies (s : RepliesState) (k : Nat) (v : List Nat) : RepliesState :=
  if s.any (fun e => e.1 == k) then
    s.map (fun e => if e.1 == k then (k, v) else e)
  else
    s ++ [(k, v)]

/-- `parent._prefetched_replies.append(comment)` for parent id `p`. -/
def appendReply (s : RepliesState) (p : Nat) (c : Nat) : RepliesState :=
  setReplies s p (((getRepliesAttr s p).getD []) ++ [c])

/-- One iteration of the loop in `_build_comment_tree` (views.py lines
135-143): unconditionally reset the current comment's reply list, then, when
`comment.parent_id` is truthy and the parent is in `comment_dict`, lazily
initialise the parent's reply list and append the comment to it. -/
def buildStep (dictIds : List Nat) (s : RepliesState) (c : CommentRec) :
    RepliesState :=
  let s1 := setReplies s c.id []
  match c.parent_id with
  | none => s1
  | some p =>
    if p == 0 then s1  -- `if comment.parent_id:` — Python truthiness
    else if dictIds.contains p then
      let s2 := if (getRepliesAttr s1 p).isSome then s1 else setReplies s1 p []
      appendReply s2 p c.id
    else s1

/-- `PostViewSet._build_comment_tree` (views.py lines 119-143): fold the loop
body over the prefetched comments, starting from no `_prefetched_replies`
attributes, with `comment_dict` keyed by the input ids. -/
def buildCommentTree (comments : List CommentRec) : RepliesState :=
  comments.foldl (buildStep (comments.map (fun c => c.id))) []

/-- `PostDetailSerializer.get_comments` (serializers.py line 170): the
top-level list is the comments whose `parent_id is None`, in input order. -/
def topLevelIds (comments : List CommentRec) : List Nat :=
  (comments.filter (fun c => c.parent_id == none)).map (fun c => c.id)

/-- Depth-first flattening of the forest rooted at `ids`, following the
`_prefetched_replies` attributes the builder produced (the recursion of
`CommentSerializer.get_replies`).  `fuel` bounds the depth; any
`fuel ≥ length of the comment list` is exact on the acyclic inputs the claims
quantify over. -/
def flattenIds (s : RepliesState) : Nat → List Nat → List Nat
  | 0, _ => []
  | fuel + 1, ids =>
    ids.flatMap (fun i => i :: flattenIds s fuel ((getRepliesAttr s i).getD []))

/-- The serialized comment section of a post detail response, flattened
depth-first from the top-level list through the reply lists. -/
def flattenedComments (comments : List CommentRec) : List Nat :=
  flattenIds (buildCommentTree comments) (comments.length + 1)
    (topLevelIds comments)

/-- The id `o` occurs in no `_prefetched_replies` list of the state `s`. -/
def NoMention (o : Nat) (s : RepliesState) : Prop :=
  ∀ e ∈ s, o ∉ e.2




/-! ## Spec-side karma formulas, for comparison with `karma_24h` -/

/-- Modelled from the spec's words (§4.3 numeric semantics): karma over the
closed-open window `[now − 24h, now)` — 5 per like on the user's posts plus 1
per like on the user's comments, counting exactly the likes whose `created_at`
satisfies `now − 24 ≤ created_at < now`. -/
def karmaClaimWindow (store : Store) (u : Nat) (now : Int) : Nat :=
  5 * (store.likes.countP fun l =>
        likeOnPostOf store u l && decide (now - 24 ≤ l.created_at) &&
          decide (l.created_at < now)) +
  1 * (store.likes.countP fun l =>
        likeOnCommentOf store u l && decide (now - 24 ≤ l.created_at) &&
          decide (l.created_at < now))

/-- The weighted-count formula with the window the code actually enforces:
only the lower bound `now − 24 ≤ created_at` (`created_at__gte=time_threshold`
in views.py lines 243 and 254); there is no upper cutoff at `now`. -/
def karmaWeighted (store : Store) (u : Nat) (now : Int) : Nat :=
  5 * (store.likes.countP fun l =>
        likeOnPostOf store u l && decide (now - 24 ≤ l.created_at)) +
  1 * (store.likes.countP fun l =>
        likeOnCommentOf store u l && decide (now - 24 ≤ l.created_at))

/-! ## General-purpose helper lemmas -/

lemma coalesce_mul_length (l : List α) (k : Nat) :
    (if l.isEmpty then 0 else k * l.length) = k * l.length := by
  cases l <;> simp

lemma length_filter_pos_iff_any (l : List α) (p : α → Bool) :
    0 < (l.filter p).length ↔ l.any p = true := by
  rw [List.length_pos_iff_exists_mem]
  simp [List.mem_filter]

lemma countP_le_one_of_pairwise {l : List α} {p : α → Bool}
    {R : α → α → Prop} (hpair : l.Pairwise R)
    (h : ∀ a b, p a = true → p b = true → ¬R a b) :
    l.countP p ≤ 1 := by
  induction l with
  | nil => simp
  | cons a t ih =>
    rcases List.pairwise_cons.mp hpair with ⟨ha, ht⟩
    by_cases hpa : p a = true
    · have ht0 : t.countP p = 0 := by
        refine List.countP_eq_zero.mpr fun b hb hpb => ?_
        exact h a b hpa hpb (ha b hb)
      simp [List.countP_cons, hpa, ht0]
    · simpa [List.countP_cons, hpa] using ih ht

lemma countP_filter_split (l : List α) (p q : α → Bool) :
    l.countP p =
      (l.filter (fun a => !(q a))).countP p + (l.filter q).countP p := by
  induction l with
  | nil => simp
  | cons a t ih =>
    by_cases hq : q a = true <;> by_cases hp : p a = true <;>
      simp [List.countP_cons, List.filter_cons, hq, hp, ih] <;> omega

/-! ## Claim theorems -/

/-- C1: the comment-tree builder does NOT preserve every input comment for
every input order.  On the spec's own example — chain C1 ← C2 ← C3 presented
in the order [C3, C1, C2] — the unconditional
`comment._prefetched_replies = []` at the top of the loop (views.py line 136)
wipes the reply list of C2 after C3 was already attached to it, so the
flattened output is [C1, C2]: comment 3 is lost even though its parent
(comment 2) is present in the input.  The claim's stated forest
`[C1 → replies:[C2 → replies:[C3]]]` would flatten to [1, 2, 3]. -/
theorem buildCommentTree_drops_child_before_parent :
    flattenedComments [⟨3, some 2⟩, ⟨1, none⟩, ⟨2, some 1⟩] = [1, 2] ∧
    (⟨3, some 2⟩ : CommentRec) ∈
      ([⟨3, some 2⟩, ⟨1, none⟩, ⟨2, some 1⟩] : List CommentRec) ∧
    2 ∈ ([⟨3, some 2⟩, ⟨1, none⟩, ⟨2, some 1⟩] : List CommentRec).map
      (fun c => c.id) ∧
    3 ∉ flattenedComments [⟨3, some 2⟩, ⟨1, none⟩, ⟨2, some 1⟩] := by decide

/-- C3 (counterexample): the leaderboard karma query does not judge likes
against the closed-open interval `[now − 24h, now)`.  With a single Like on
user 1's post whose `created_at` equals the query instant `now = 0`, the code
(`created_at__gte = now − 24h`, no upper bound) scores karma 5, while the
claimed interval `[now − 24h, now)` excludes the row and yields 0. -/
theorem karma_window_upper_bound_counterexample :
    karma_24h ⟨[1], [⟨10, 1⟩], [], [⟨2, some 10, none, 0⟩]⟩ 1 (0 - 24) = 5 ∧
    karmaClaimWindow ⟨[1], [⟨10, 1⟩], [], [⟨2, some 10, none, 0⟩]⟩ 1 0 = 0 := by
  decide

/-- C3 (amended): for every store, user and query instant, the karma computed
by the leaderboard query (two coalesced grouped subqueries summed) equals
5 times the number of Like rows on the user's posts plus 1 times the number of
Like rows on the user's comments, counting exactly the rows with
`now − 24h ≤ created_at` — the closed-unbounded interval `[now − 24h, ∞)`,
with the single threshold `now − 24h` evaluated once per request; a like
created 25 hours ago still contributes 0. -/
theorem karma_24h_eq_weighted_window (store : Store) (u : Nat) (now : Int) :
    karma_24h store u (now - 24) = karmaWeighted store u now := by
  unfold karma_24h pk_karma ck_karma karmaWeighted
  rw [coalesce_mul_length, coalesce_mul_length,
    List.countP_eq_length_filter, List.countP_eq_length_filter]

/-- C7: the leaderboard result is a sequence of at most 5 entries, sorted by
24-hour karma in descending order, every entry carries strictly positive karma
(users with karma 0 are omitted, not listed with a zero score), and each
entry's score is exactly the `karma_24h` of its user against the request's
single threshold `now − 24h`. -/
theorem top_karma_bounded_sorted_positive (store : Store) (now : Int) :
    (LeaderboardViewSet.top store now).length ≤ 5 ∧
    List.Sorted karmaDesc (LeaderboardViewSet.top store now) ∧
    ∀ e ∈ LeaderboardViewSet.top store now,
      0 < e.2 ∧ e.2 = karma_24h store e.1 (now - 24) := by
  unfold LeaderboardViewSet.top
  refine ⟨List.length_take_le _ _, ?_, ?_⟩
  · exact List.Pairwise.sublist (List.take_sublist _ _)
      (List.sorted_insertionSort karmaDesc _)
  · intro e he
    have h1 := List.mem_of_mem_take he
    have h2 := (List.perm_insertionSort karmaDesc _).subset h1
    have h3 := List.mem_filter.mp h2
    obtain ⟨u, _, rfl⟩ := List.mem_map.mp h3.1
    exact ⟨by simpa using h3.2, rfl⟩

/-- C8: the code does not reject every request whose referenced target is
absent.  Concrete run: the store has a single post (id 10, not id 0) and user
7 has one Like on it; the request `post_id = 0, comment_id` absent names a
nonexistent target, yet `if post_id:` truthiness skips the existence check and
the post/comment dispatch, so the call proceeds down the comment branch with
`comment_id = None`, deletes user 7's post-Like (`filter(user=7,
comment_id=None)` matches it) and answers `"unliked"` — not the
`ValidationError`-before-any-mutation the claim requires. -/
theorem toggle_zero_id_bypasses_validation :
    (([⟨10, 1⟩] : List PostRow).all (fun p => p.id != 0)) = true ∧
    LikeViewSet.toggle ⟨[1, 7], [⟨10, 1⟩], [], [⟨7, some 10, none, 0⟩]⟩ 7
      (some 0) none 5 none = (.unliked, []) := by decide

/-- C10: a toggle request with `post_id = 0` (comment id absent) passes the
exactly-one-target check, skips the target-existence check (both test the id
for truthiness, and `0` is falsy), is never answered with a
`ValidationError`, and is dispatched down the comment branch with
`comment_id = None`: it deletes the user's post-Likes (the rows with
`comment IS NULL`) and reports `"unliked"` when any exist, and otherwise
aborts inside `Like.save` with the uncaught XOR fault of `Like.clean`. -/
theorem toggle_zero_id_comment_branch (store : Store) (u : Nat) (now : Int) :
    LikeSerializer.validate store (some 0) none = .ok () ∧
    (∀ m, (LikeViewSet.toggle store u (some 0) none now none).1 ≠
      .validationError m) ∧
    LikeViewSet.toggle store u (some 0) none now none =
      (if store.likes.any (fun r => r.user == u && r.comment == none) then
        (.unliked, store.likes.filter (fun r => !(r.user == u && r.comment == none)))
      else
        (.uncaughtFault "Like must target exactly one: post or comment",
          store.likes)) := by
  have hval : LikeSerializer.validate store (some 0) none = .ok () := by
    simp [LikeSerializer.validate, truthy]
  have key : LikeViewSet.toggle store u (some 0) none now none =
      (if store.likes.any (fun r => r.user == u && r.comment == none) then
        (.unliked,
          store.likes.filter (fun r => !(r.user == u && r.comment == none)))
      else
        (.uncaughtFault "Like must target exactly one: post or comment",
          store.likes)) := by
    unfold LikeViewSet.toggle
    rw [hval]
    simp only [truthy]
    norm_num
    have hiff : 0 < (List.filter
          (fun r => r.user == u && r.comment == none) store.likes).length ↔
        ∃ x ∈ store.likes, x.user = u ∧ x.comment = none := by
      rw [List.length_pos_iff_exists_mem]
      simp [List.mem_filter]
    simp only [hiff]
  refine ⟨hval, ?_, key⟩
  intro m
  rw [key]
  split <;> simp


lemma likeMatches_mkLikeRow (u : Nat) (tg : Target) (t' : Int) :
    likeMatches u tg (mkLikeRow u tg t') = true := by
  cases tg <;> simp [likeMatches, mkLikeRow]

lemma likeOn_mkLikeRow (tg : Target) (u : Nat) (t' : Int) :
    likeOn tg (mkLikeRow u tg t') = true := by
  cases tg <;> simp [likeOn, mkLikeRow]

lemma likeOn_of_likeMatches {u : Nat} {tg : Target} {r : LikeRow}
    (h : likeMatches u tg r = true) : likeOn tg r = true := by
  cases tg <;> simp only [likeMatches, likeOn, Bool.and_eq_true] at h ⊢ <;>
    exact h.2

lemma likeMatches_conflict {u : Nat} {tg : Target} {a b : LikeRow}
    (ha : likeMatches u tg a = true) (hb : likeMatches u tg b = true) :
    uniqueConflict a b = true := by
  cases tg <;> simp only [likeMatches, Bool.and_eq_true, beq_iff_eq] at ha hb <;>
    simp [uniqueConflict, ha.1, ha.2, hb.1, hb.2]

lemma mkLikeRow_conflict (u : Nat) (tg : Target) (t1 t2 : Int) :
    uniqueConflict (mkLikeRow u tg t1) (mkLikeRow u tg t2) = true :=
  likeMatches_conflict (likeMatches_mkLikeRow u tg t1) (likeMatches_mkLikeRow u tg t2)

lemma length_eq_filter_add_filter_not (l : List α) (p : α → Bool) :
    l.length = (l.filter p).length + (l.filter (fun a => !(p a))).length := by
  induction l with
  | nil => simp
  | cons a t ih =>
    by_cases hp : p a = true <;> simp [List.filter_cons, hp, ih] <;> omega

lemma toggle_char (store : Store) (u : Nat) (tg : Target) (now : Int)
    (hv : targetValid store tg) :
    toggleOn store u tg now =
      if store.likes.any (likeMatches u tg) then
        (.unliked, store.likes.filter (fun r => !(likeMatches u tg r)))
      else
        (.liked, store.likes ++ [mkLikeRow u tg now]) := by
  cases tg with
  | post p =>
    obtain ⟨hp0, pr, hmem, hid⟩ := hv
    have hany : store.posts.any (fun q => q.id == p) = true :=
      List.any_eq_true.mpr ⟨pr, hmem, by simp [hid]⟩
    have hval : LikeSerializer.validate store (some p) none = .ok () := by
      simp [LikeSerializer.validate, truthy, hp0, hany]
    show LikeViewSet.toggle store u (some p) none now none = _
    unfold LikeViewSet.toggle
    rw [hval]
    simp only [truthy, likeMatches, mkLikeRow]
    norm_num [hp0]
    have hlen : 0 < (List.filter (fun r => r.user == u && r.post == some p)
        store.likes).length ↔ ∃ x ∈ store.likes, x.user = u ∧ x.post = some p := by
      rw [List.length_pos_iff_exists_mem]; simp [List.mem_filter]
    have hmatch : (∃ x ∈ store.likes, likeMatches u (Target.post p) x = true) ↔
        ∃ x ∈ store.likes, x.user = u ∧ x.post = some p := by
      simp [likeMatches]
    have hconfl : (∃ x ∈ store.likes, uniqueConflict x
        { user := u, post := some p, comment := none, created_at := now } = true) ↔
        ∃ x ∈ store.likes, x.user = u ∧ x.post = some p := by
      constructor
      · rintro ⟨x, hx, hcf⟩
        refine ⟨x, hx, ?_⟩
        simp [uniqueConflict] at hcf
        rcases hcf with ⟨⟨h1, _⟩, h3⟩ | ⟨⟨h1, h2⟩, h3⟩
        · exact ⟨h1, h3⟩
        · rw [h3] at h2; simp at h2
      · rintro ⟨x, hx, h1, h2⟩
        exact ⟨x, hx, by simp [uniqueConflict, h1, h2]⟩
    by_cases h : ∃ x ∈ store.likes, x.user = u ∧ x.post = some p
    · rw [if_pos (hlen.mpr h), if_pos (hmatch.mpr h)]
    · rw [if_neg (fun hc => h (hlen.mp hc)), if_neg (fun hc => h (hconfl.mp hc)),
        if_neg (fun hc => h (hmatch.mp hc))]
  | comment c =>
    obtain ⟨hc0, cr, hmem, hid⟩ := hv
    have hany : store.comments.any (fun q => q.id == c) = true :=
      List.any_eq_true.mpr ⟨cr, hmem, by simp [hid]⟩
    have hval : LikeSerializer.validate store none (some c) = .ok () := by
      simp [LikeSerializer.validate, truthy, hc0, hany]
    show LikeViewSet.toggle store u none (some c) now none = _
    unfold LikeViewSet.toggle
    rw [hval]
    simp only [truthy, likeMatches, mkLikeRow]
    norm_num [hc0]
    have hlen : 0 < (List.filter (fun r => r.user == u && r.comment == some c)
        store.likes).length ↔ ∃ x ∈ store.likes, x.user = u ∧ x.comment = some c := by
      rw [List.length_pos_iff_exists_mem]; simp [List.mem_filter]
    have hmatch : (∃ x ∈ store.likes, likeMatches u (Target.comment c) x = true) ↔
        ∃ x ∈ store.likes, x.user = u ∧ x.comment = some c := by
      simp [likeMatches]
    have hconfl : (∃ x ∈ store.likes, uniqueConflict x
        { user := u, post := none, comment := some c, created_at := now } = true) ↔
        ∃ x ∈ store.likes, x.user = u ∧ x.comment = some c := by
      constructor
      · rintro ⟨x, hx, hcf⟩
        refine ⟨x, hx, ?_⟩
        simp [uniqueConflict] at hcf
        rcases hcf with ⟨⟨h1, h2⟩, h3⟩ | ⟨⟨h1, _⟩, h3⟩
        · rw [h3] at h2; simp at h2
        · exact ⟨h1, h3⟩
      · rintro ⟨x, hx, h1, h2⟩
        exact ⟨x, hx, by simp [uniqueConflict, h1, h2]⟩
    by_cases h : ∃ x ∈ store.likes, x.user = u ∧ x.comment = some c
    · rw [if_pos (hlen.mpr h), if_pos (hmatch.mpr h)]
    · rw [if_neg (fun hc => h (hlen.mp hc)), if_neg (fun hc => h (hconfl.mp hc)),
        if_neg (fun hc => h (hmatch.mp hc))]

/-- C2: on a valid single target, the toggle deletes the existing Like row by
`u` on `t` and reports `"unliked"` when such a row exists (the table shrinks by
exactly that one row), and otherwise inserts exactly one Like row by `u` on `t`
and reports `"liked"` (the table is the old table plus that one row); no other
Like rows are created or deleted. -/
theorem toggle_flips_like_state (store : Store) (u : Nat) (tg : Target)
    (now : Int) (hv : targetValid store tg) (hinv : LikeInvariant store.likes) :
    ((∃ r ∈ store.likes, likeMatches u tg r = true) →
      (toggleOn store u tg now).1 = .unliked ∧
      (toggleOn store u tg now).2 =
        store.likes.filter (fun r => !(likeMatches u tg r)) ∧
      store.likes.length = (toggleOn store u tg now).2.length + 1) ∧
    ((¬ ∃ r ∈ store.likes, likeMatches u tg r = true) →
      (toggleOn store u tg now).1 = .liked ∧
      (toggleOn store u tg now).2 = store.likes ++ [mkLikeRow u tg now]) := by
  rw [toggle_char store u tg now hv]
  constructor
  · intro hex
    have hany : store.likes.any (likeMatches u tg) = true :=
      List.any_eq_true.mpr hex
    rw [if_pos hany]
    refine ⟨rfl, rfl, ?_⟩
    have hone : (store.likes.filter (likeMatches u tg)).length = 1 := by
      have hle : store.likes.countP (likeMatches u tg) ≤ 1 :=
        countP_le_one_of_pairwise hinv.2
          (fun a b ha hb hR => by rw [likeMatches_conflict ha hb] at hR; simp at hR)
      have hge : 0 < (store.likes.filter (likeMatches u tg)).length := by
        rw [length_filter_pos_iff_any]; exact hany
      rw [List.countP_eq_length_filter] at hle
      omega
    have := length_eq_filter_add_filter_not store.likes (likeMatches u tg)
    simp only [this, hone]
    omega
  · intro hnex
    have hany : store.likes.any (likeMatches u tg) = false := by
      rw [List.any_eq_false]
      intro x hx hpx
      exact hnex ⟨x, hx, hpx⟩
    rw [if_neg (by simp [hany])]
    exact ⟨rfl, rfl⟩

/-- Witness for C2 at a concrete input: user 7, empty Like table, post 10. -/
theorem toggle_flips_like_state_witness :
    (toggleOn ⟨[1], [⟨10, 1⟩], [], []⟩ 7 (.post 10) 3).1 = .liked :=
  ((toggle_flips_like_state ⟨[1], [⟨10, 1⟩], [], []⟩ 7 (.post 10) 3 (by decide)
    (by decide)).2 (by decide)).1

/-- C4: when a concurrent transaction commits a Like by `u` on `t` between
this call's `delete()` and its `create()`, the insert violates the uniqueness
constraint and raises `IntegrityError`; the view catches it and responds with
the HTTP 409 concurrent-modification conflict — not a `ValidationError` and
not an unhandled fault — and this call's own attempt leaves the Like table
unchanged: the final table is the entry table plus only the row the concurrent
transaction committed (the failed insert persisted nothing). -/
theorem toggle_race_conflict_409 (store : Store) (u : Nat) (tg : Target)
    (now tr : Int) (hv : targetValid store tg)
    (hno : ∀ r ∈ store.likes, ¬likeMatches u tg r = true) :
    (LikeViewSet.toggle store u tg.postId tg.commentId now
        (some (mkLikeRow u tg tr))).1 = .conflict ∧
    (∀ m, (LikeViewSet.toggle store u tg.postId tg.commentId now
        (some (mkLikeRow u tg tr))).1 ≠ .validationError m) ∧
    (∀ m, (LikeViewSet.toggle store u tg.postId tg.commentId now
        (some (mkLikeRow u tg tr))).1 ≠ .uncaughtFault m) ∧
    (LikeViewSet.toggle store u tg.postId tg.commentId now
        (some (mkLikeRow u tg tr))).2 = store.likes ++ [mkLikeRow u tg tr] := by
  have key : LikeViewSet.toggle store u tg.postId tg.commentId now
      (some (mkLikeRow u tg tr)) =
      (.conflict, store.likes ++ [mkLikeRow u tg tr]) := by
    cases tg with
    | post p =>
      obtain ⟨hp0, pr, hmem, hid⟩ := hv
      have hany : store.posts.any (fun q => q.id == p) = true :=
        List.any_eq_true.mpr ⟨pr, hmem, by simp [hid]⟩
      have hval : LikeSerializer.validate store (some p) none = .ok () := by
        simp [LikeSerializer.validate, truthy, hp0, hany]
      show LikeViewSet.toggle store u (some p) none now _ = _
      unfold LikeViewSet.toggle
      rw [hval]
      simp only [truthy, mkLikeRow]
      norm_num [hp0]
      have hlen : ¬ 0 < (List.filter (fun r => r.user == u && r.post == some p)
          store.likes).length := by
        rw [List.length_pos_iff_exists_mem]
        rintro ⟨x, hx⟩
        have := List.mem_filter.mp hx
        refine hno x this.1 ?_
        simpa [likeMatches] using this.2
      rw [if_neg hlen]
      rw [if_pos (Or.inr (by simp [uniqueConflict]))]
    | comment c =>
      obtain ⟨hc0, cr, hmem, hid⟩ := hv
      have hany : store.comments.any (fun q => q.id == c) = true :=
        List.any_eq_true.mpr ⟨cr, hmem, by simp [hid]⟩
      have hval : LikeSerializer.validate store none (some c) = .ok () := by
        simp [LikeSerializer.validate, truthy, hc0, hany]
      show LikeViewSet.toggle store u none (some c) now _ = _
      unfold LikeViewSet.toggle
      rw [hval]
      simp only [truthy, mkLikeRow]
      norm_num [hc0]
      have hlen : ¬ 0 < (List.filter (fun r => r.user == u && r.comment == some c)
          store.likes).length := by
        rw [List.length_pos_iff_exists_mem]
        rintro ⟨x, hx⟩
        have := List.mem_filter.mp hx
        refine hno x this.1 ?_
        simpa [likeMatches] using this.2
      rw [if_neg hlen]
      rw [if_pos (Or.inr (by simp [uniqueConflict]))]
  rw [key]
  exact ⟨rfl, by simp, by simp, rfl⟩

/-- Witness for C4 at a concrete input: user 7, post 10, empty Like table,
with the concurrent transaction committing its row at time 2. -/
theorem toggle_race_conflict_409_witness :
    (LikeViewSet.toggle ⟨[1], [⟨10, 1⟩], [], []⟩ 7 (Target.post 10).postId
        (Target.post 10).commentId 3 (some (mkLikeRow 7 (.post 10) 2))).1 =
      .conflict :=
  (toggle_race_conflict_409 ⟨[1], [⟨10, 1⟩], [], []⟩ 7 (.post 10) 3 2
    (by decide) (by decide)).1

/-- C6: two successive toggles by the same user on the same valid target
return the Like count of that target to its value before the first call, and
the two calls report `"unliked"` then `"liked"` when a Like by `u` on `t`
existed initially, and `"liked"` then `"unliked"` otherwise. -/
theorem toggle_toggle_restores_count (store : Store) (u : Nat) (tg : Target)
    (now1 now2 : Int) (hv : targetValid store tg)
    (hinv : LikeInvariant store.likes) :
    likeCountOn tg
        (toggleOn {store with likes := (toggleOn store u tg now1).2} u tg now2).2 =
      likeCountOn tg store.likes ∧
    (if ∃ r ∈ store.likes, likeMatches u tg r = true then
      (toggleOn store u tg now1).1 = .unliked ∧
      (toggleOn {store with likes := (toggleOn store u tg now1).2} u tg now2).1 =
        .liked
    else
      (toggleOn store u tg now1).1 = .liked ∧
      (toggleOn {store with likes := (toggleOn store u tg now1).2} u tg now2).1 =
        .unliked) := by
  have hv2 : ∀ l : List LikeRow, targetValid {store with likes := l} tg := by
    intro l; cases tg <;> exact hv
  by_cases hex : ∃ r ∈ store.likes, likeMatches u tg r = true
  · have hany : store.likes.any (likeMatches u tg) = true :=
      List.any_eq_true.mpr hex
    rw [toggle_char store u tg now1 hv, if_pos hany]
    rw [toggle_char _ u tg now2 (hv2 _)]
    have hF : ({store with likes := (
        store.likes.filter (fun r => !(likeMatches u tg r)))} : Store).likes =
        store.likes.filter (fun r => !(likeMatches u tg r)) := rfl
    rw [hF]
    have hnone : (store.likes.filter (fun r => !(likeMatches u tg r))).any
        (likeMatches u tg) = false := by
      rw [List.any_eq_false]
      intro x hx
      have := List.mem_filter.mp hx
      simpa using this.2
    rw [if_neg (by simp [hnone])]
    have hone : (store.likes.filter (likeMatches u tg)).length = 1 := by
      have hle : store.likes.countP (likeMatches u tg) ≤ 1 :=
        countP_le_one_of_pairwise hinv.2
          (fun a b ha hb hR => by rw [likeMatches_conflict ha hb] at hR; simp at hR)
      have hge : 0 < (store.likes.filter (likeMatches u tg)).length := by
        rw [length_filter_pos_iff_any]; exact hany
      rw [List.countP_eq_length_filter] at hle
      omega
    refine ⟨?_, by rw [if_pos hex]; exact ⟨rfl, rfl⟩⟩
    unfold likeCountOn
    rw [List.filter_append]
    have hrow : [mkLikeRow u tg now2].filter (likeOn tg) = [mkLikeRow u tg now2] := by
      simp [likeOn_mkLikeRow]
    rw [hrow, List.length_append]
    have hsplit := countP_filter_split store.likes (likeOn tg) (likeMatches u tg)
    have hmcnt : (store.likes.filter (likeMatches u tg)).countP (likeOn tg) = 1 := by
      have hall : ∀ a ∈ store.likes.filter (likeMatches u tg), likeOn tg a = true :=
        fun a ha => likeOn_of_likeMatches (List.mem_filter.mp ha).2
      rw [List.countP_eq_length.mpr hall, hone]
    rw [hmcnt, List.countP_eq_length_filter, List.countP_eq_length_filter] at hsplit
    simp only [List.length_singleton]
    omega
  · have hany : store.likes.any (likeMatches u tg) = false := by
      rw [List.any_eq_false]; intro x hx hpx; exact hex ⟨x, hx, hpx⟩
    rw [toggle_char store u tg now1 hv, if_neg (by simp [hany])]
    rw [toggle_char _ u tg now2 (hv2 _)]
    have hT : ({store with likes := store.likes ++ [mkLikeRow u tg now1]} : Store).likes =
        store.likes ++ [mkLikeRow u tg now1] := rfl
    rw [hT]
    have hany2 : (store.likes ++ [mkLikeRow u tg now1]).any (likeMatches u tg) = true := by
      rw [List.any_append]
      simp [likeMatches_mkLikeRow]
    rw [if_pos hany2]
    have hself : (store.likes ++ [mkLikeRow u tg now1]).filter
        (fun r => !(likeMatches u tg r)) = store.likes := by
      rw [List.filter_append]
      have h1 : store.likes.filter (fun r => !(likeMatches u tg r)) = store.likes := by
        rw [List.filter_eq_self]
        intro a ha
        simp only [Bool.not_eq_true']
        exact Bool.not_eq_true _ |>.mp (fun hpa => hex ⟨a, ha, hpa⟩)
      have h2 : [mkLikeRow u tg now1].filter (fun r => !(likeMatches u tg r)) = [] := by
        simp [likeMatches_mkLikeRow]
      rw [h1, h2, List.append_nil]
    rw [hself]
    exact ⟨rfl, by rw [if_neg hex]; exact ⟨rfl, rfl⟩⟩

/-- Witness for C6 at a concrete input: user 7, post 10, empty Like table. -/
theorem toggle_toggle_restores_count_witness :
    likeCountOn (.post 10)
        (toggleOn {(⟨[1], [⟨10, 1⟩], [], []⟩ : Store) with
          likes := (toggleOn ⟨[1], [⟨10, 1⟩], [], []⟩ 7 (.post 10) 3).2} 7
          (.post 10) 4).2 =
      likeCountOn (.post 10) (⟨[1], [⟨10, 1⟩], [], []⟩ : Store).likes :=
  (toggle_toggle_restores_count ⟨[1], [⟨10, 1⟩], [], []⟩ 7 (.post 10) 3 4
    (by decide) (by decide)).1

lemma invariant_append_row {t : List LikeRow} {row : LikeRow}
    (ht : LikeInvariant t) (hrow : validTarget row = true)
    (hnc : ∀ r ∈ t, ¬uniqueConflict r row = true) :
    LikeInvariant (t ++ [row]) := by
  constructor
  · intro r hr
    rcases List.mem_append.mp hr with h | h
    · exact ht.1 r h
    · rw [List.mem_singleton.mp h]; exact hrow
  · refine List.pairwise_append.mpr ⟨ht.2, List.pairwise_singleton .., ?_⟩
    intro a ha b hb
    rw [List.mem_singleton.mp hb]
    simpa using hnc a ha

/-- C9: the toggle preserves the Like-table invariants enforced by the
database: every row targets exactly one of post/comment, and there is at most
one row per (user, post) and per (user, comment).  `hrace` states that the row
a concurrent transaction commits (if any) also passed the database
constraints, which is what the database guarantees. -/
theorem toggle_preserves_like_invariant (store : Store) (u : Nat)
    (post_id comment_id : Option Nat) (now : Int) (race : Option LikeRow)
    (hinv : LikeInvariant store.likes)
    (hrace : LikeInvariant (store.likes ++ race.toList)) :
    LikeInvariant (LikeViewSet.toggle store u post_id comment_id now race).2 := by
  unfold LikeViewSet.toggle
  cases hval : LikeSerializer.validate store post_id comment_id with
  | error m => exact hinv
  | ok v =>
    simp only []
    repeat' split
    all_goals
      first
        | exact hrace
        | exact ⟨fun r hr => hinv.1 r (List.mem_filter.mp hr).1,
            List.Pairwise.filter _ hinv.2⟩
        | (rename_i hclean hconfl
           refine invariant_append_row hrace ?_ ?_
           · simp only [validTarget]
             simpa using hclean
           · intro r hr hc
             exact hconfl (List.any_eq_true.mpr ⟨r, hr, hc⟩))

/-- Witness for C9 at a concrete input: a fresh like by user 7 on post 10. -/
theorem toggle_preserves_like_invariant_witness :
    LikeInvariant
      (LikeViewSet.toggle ⟨[1], [⟨10, 1⟩], [], []⟩ 7 (some 10) none 3 none).2 :=
  toggle_preserves_like_invariant ⟨[1], [⟨10, 1⟩], [], []⟩ 7 (some 10) none 3
    none (by decide) (by decide)

lemma setReplies_no_mention {o : Nat} {s : RepliesState} {k : Nat}
    {v : List Nat} (hs : NoMention o s) (hv : o ∉ v) :
    NoMention o (setReplies s k v) := by
  intro e he
  unfold setReplies at he
  split at he
  · rcases List.mem_map.mp he with ⟨e', he', rfl⟩
    split
    · exact hv
    · exact hs e' he'
  · rcases List.mem_append.mp he with h | h
    · exact hs e h
    · rw [List.mem_singleton.mp h]
      exact hv

lemma getRepliesAttr_some {s : RepliesState} {k : Nat} {l : List Nat}
    (h : getRepliesAttr s k = some l) : ∃ e ∈ s, e.2 = l := by
  unfold getRepliesAttr at h
  cases hf : s.find? (fun e => e.1 == k) with
  | none => rw [hf] at h; simp at h
  | some e =>
    rw [hf] at h
    simp at h
    exact ⟨e, List.mem_of_find?_eq_some hf, h⟩

lemma getRepliesAttr_getD_no_mention {o : Nat} {s : RepliesState} {k : Nat}
    (hs : NoMention o s) : o ∉ (getRepliesAttr s k).getD [] := by
  cases hg : getRepliesAttr s k with
  | none => simp
  | some l =>
    obtain ⟨e, he, hel⟩ := getRepliesAttr_some hg
    simpa [hel] using hs e he

lemma buildStep_no_mention {o p0 : Nat} {dictIds : List Nat}
    {s : RepliesState} {c : CommentRec} (hs : NoMention o s)
    (hc : c.id = o → c.parent_id = some p0)
    (hp0 : dictIds.contains p0 = false) :
    NoMention o (buildStep dictIds s c) := by
  have hs1 : NoMention o (setReplies s c.id []) :=
    setReplies_no_mention hs (by simp)
  unfold buildStep
  cases hpar : c.parent_id with
  | none => exact hs1
  | some p =>
    simp only []
    split
    · exact hs1
    · split
      · rename_i hz hmem
        have hco : c.id ≠ o := by
          intro h
          have h2 := hc h
          rw [hpar] at h2
          injection h2 with h3
          rw [h3] at hmem
          rw [hp0] at hmem
          exact Bool.false_ne_true hmem
        have hs2 : NoMention o (if (getRepliesAttr (setReplies s c.id []) p).isSome
            then setReplies s c.id [] else setReplies (setReplies s c.id []) p []) := by
          split
          · exact hs1
          · exact setReplies_no_mention hs1 (by simp)
        apply setReplies_no_mention hs2
        intro hmm
        rcases List.mem_append.mp hmm with h | h
        · exact getRepliesAttr_getD_no_mention hs2 h
        · exact hco (List.mem_singleton.mp h).symm
      · exact hs1

lemma foldl_buildStep_no_mention {o p0 : Nat} {dictIds : List Nat}
    (hp0 : dictIds.contains p0 = false) :
    ∀ (cs : List CommentRec) (s : RepliesState), NoMention o s →
      (∀ c ∈ cs, c.id = o → c.parent_id = some p0) →
      NoMention o (cs.foldl (buildStep dictIds) s)
  | [], s, hs, _ => hs
  | c :: cs, s, hs, hcs => by
    rw [List.foldl_cons]
    exact foldl_buildStep_no_mention hp0 cs _
      (buildStep_no_mention hs (hcs c (List.mem_cons_self c cs)) hp0)
      (fun d hd => hcs d (List.mem_cons_of_mem c hd))

lemma mem_flattenIds {s : RepliesState} :
    ∀ {fuel : Nat} {ids : List Nat} {x : Nat},
      x ∈ flattenIds s fuel ids → x ∈ ids ∨ ∃ e ∈ s, x ∈ e.2 := by
  intro fuel
  induction fuel with
  | zero => intro ids x hx; simp [flattenIds] at hx
  | succ n ih =>
    intro ids x hx
    unfold flattenIds at hx
    rcases List.mem_flatMap.mp hx with ⟨i, hi, hxi⟩
    rcases List.mem_cons.mp hxi with rfl | hx'
    · exact Or.inl hi
    · rcases ih hx' with h | h
      · right
        cases hga : getRepliesAttr s i with
        | none => rw [hga] at h; simp at h
        | some l =>
          rw [hga] at h
          obtain ⟨e, he, hel⟩ := getRepliesAttr_some hga
          exact ⟨e, he, by simpa [hel] using h⟩
      · exact Or.inr h

/-- C5: a comment whose non-null `parent_id` references an id absent from the
input sequence is silently dropped from the output entirely: its id appears in
no reply list of the built forest, not in the top-level list (`parent_id is
None` filter), and hence nowhere in the depth-first flattening of the
serialized comment section. -/
theorem orphan_comment_dropped (comments : List CommentRec) (o : CommentRec)
    (p0 : Nat) (hmem : o ∈ comments) (hpar : o.parent_id = some p0)
    (habs : p0 ∉ comments.map (fun c => c.id))
    (hnodup : (comments.map (fun c => c.id)).Nodup) :
    (∀ e ∈ buildCommentTree comments, o.id ∉ e.2) ∧
    o.id ∉ topLevelIds comments ∧
    o.id ∉ flattenedComments comments := by
  have hinj := List.inj_on_of_nodup_map hnodup
  have hcontains : (comments.map (fun c => c.id)).contains p0 = false := by
    by_contra h
    exact habs (by simpa using Bool.not_eq_false _ |>.mp h)
  have hids : ∀ c ∈ comments, c.id = o.id → c.parent_id = some p0 := by
    intro c hc hcid
    rw [hinj hc hmem hcid]
    exact hpar
  have hmain : NoMention o.id (buildCommentTree comments) := by
    unfold buildCommentTree
    exact foldl_buildStep_no_mention hcontains comments [] (by intro e he; simp at he)
      hids
  refine ⟨hmain, ?_, ?_⟩
  · intro htop
    unfold topLevelIds at htop
    rcases List.mem_map.mp htop with ⟨c, hc, hcid⟩
    have hcf := List.mem_filter.mp hc
    have : c = o := hinj hcf.1 hmem hcid
    rw [this] at hcf
    rw [hpar] at hcf
    simp at hcf
  · intro hflat
    unfold flattenedComments at hflat
    rcases mem_flattenIds hflat with h | ⟨e, he, hxe⟩
    · unfold topLevelIds at h
      rcases List.mem_map.mp h with ⟨c, hc, hcid⟩
      have hcf := List.mem_filter.mp hc
      have : c = o := hinj hcf.1 hmem hcid
      rw [this] at hcf
      rw [hpar] at hcf
      simp at hcf
    · exact hmain e he hxe

/-- Witness for C5 at a concrete input: comment 2's parent 9 is absent. -/
theorem orphan_comment_dropped_witness :
    2 ∉ flattenedComments [⟨1, none⟩, ⟨2, some 9⟩] :=
  (orphan_comment_dropped [⟨1, none⟩, ⟨2, some 9⟩] ⟨2, some 9⟩ 9 (by decide)
    rfl (by decide) (by decide)).2.2
